import Mathlib

set_option maxRecDepth 8000

/-!
Shallow embedding of the windowed list/selection engine of
`kivy/adapters/listadapter.py` (classes `RangeObservingObservableList` and
`ListAdapter`), together with theorems settling the frozen claims about it.

Modelling decisions, stated once here:

* Views are mutable shared Python objects; we model them by numeric
  identifiers (`vid`) into a store `views : Nat -> ViewRec`.  A `ViewRec`
  records the mutable `index` and `is_selected` fields and two counters
  (`selectCalls`, `deselectCalls`) counting the calls of the display
  methods `view.select()` / `view.deselect()`.
* `cached_views` is a Python dict keyed by small non-negative ints.  We
  model it as an association list sorted by key; iteration (`iteritems`,
  `for k in dict`) is modelled as iteration in ascending key order, which
  is the de-facto CPython behaviour for small dicts with small int keys.
* Data items are modelled by value inside `data`; mutating an item's
  `is_selected` attribute becomes `List.set` at its position.  The
  duck-typing cases of the source (a `SelectableDataItem`/dict/attribute
  flag, a callable `is_selected`, a dict without an `is_selected` key,
  any other object with no `is_selected` at all) become the four
  constructors of `DataItemKind`; the flagless-dict case is separate
  because `set_data_item_selection` writes `item['is_selected'] = value`
  for *any* dict, key present or not, while `create_view` treats a dict
  without the key as unselectable.
* Python exceptions are modelled by `PRes`: `.exn st e` carries the state
  at the moment the exception is raised (mutations already performed are
  kept, as in Python).
* `handle_selection`, `check_for_empty_selection`, `get_view` and
  `create_view` are mutually recursive in the source (through the
  empty-selection auto-select and through selection propagation during
  view construction).  They are embedded as a single function `run` on a
  `Call` tag, structurally recursive on a fuel argument so that all
  definitions reduce in the kernel.  Fuel exhaustion is the artificial
  error `.fuelOut`; every theorem either quantifies over fuel or uses a
  concrete fuel large enough for the recursion depth actually reached.
* `selection.remove(view)` is modelled by `List.erase`; at every call
  site of `deselect_item_view` in the source the view is a member of the
  selection list, so the `ValueError` branch of `remove` is unreachable.
* Python's `for x in lst:` over a list that the loop body mutates reads
  `lst[0], lst[1], ...` from the live list until the position runs past
  the end; `deselect_loop` reproduces exactly that (this is the source of
  the skipping behaviour when deselecting while iterating).
-/

/-- Result of a data item's selection capability check, following the
duck-typing cases in `create_view` / `set_data_item_selection`:
`selectable b` covers `SelectableDataItem` subclasses, dicts with an
`is_selected` key and objects with a boolean `is_selected` attribute;
`callableFlag b` covers objects whose `is_selected` is a function or
method returning `b`; `plainDict` covers dicts *without* an
`is_selected` key (unselectable for `create_view`, but written
unconditionally by `set_data_item_selection`, which creates the key);
`plain` covers any other object with no `is_selected` at all. -/
inductive DataItemKind where
  | selectable (b : Bool)
  | callableFlag (b : Bool)
  | plainDict
  | plain
deriving DecidableEq, Repr

/-- One element of the adapter's `data` list: an identity (for tracking
items across mutations) and its selection capability. -/
structure DataItem where
  id : Nat
  kind : DataItemKind
deriving DecidableEq, Repr

/-- The mutable state of one instantiated item view. -/
structure ViewRec where
  index : Nat
  itemId : Nat
  is_selected : Bool
  selectCalls : Nat
  deselectCalls : Nat
deriving DecidableEq, Repr

instance : Inhabited ViewRec :=
  ⟨⟨0, 0, false, 0, 0⟩⟩

/-- `selection_mode` option values. -/
inductive SelectionMode where
  | none
  | single
  | multiple
deriving DecidableEq, Repr

/-- Python exceptions (plus the artificial fuel-exhaustion marker). -/
inductive PyErr where
  | indexError
  | keyError
  | attributeError
  | valueError
  | configError
  | fuelOut
deriving DecidableEq, Repr

/-- State of a `ListAdapter` instance.  `cached_view_indices_and_data` is
the `DictProperty` of the same name on `RangeObservingObservableList`;
the adapter's `__init__` sets it to the empty dict. -/
structure Adapter where
  data : List DataItem
  selection : List Nat
  selection_mode : SelectionMode
  propagate_selection_to_data : Bool
  allow_empty_selection : Bool
  selection_limit : Int
  cached_views : List (Nat × Nat)
  views : Nat → ViewRec
  nextVid : Nat
  cached_view_indices_and_data : List (Nat × DataItem)

/-- Result of a stateful operation: normal return with a value, or a
propagating Python exception together with the state at raise time. -/
inductive PRes (α : Type) where
  | ok (st : Adapter) (a : α)
  | exn (st : Adapter) (e : PyErr)

/-- The adapter state carried by a result (on exception, the state at the
moment the exception was raised). -/
def resState {α : Type} : PRes α → Adapter
  | .ok st _ => st
  | .exn st _ => st

/-- The exception carried by a result, if any. -/
def errOf {α : Type} : PRes α → Option PyErr
  | .ok _ _ => none
  | .exn _ e => some e

/-- Point update of the view store. -/
def updView (vs : Nat → ViewRec) (vid : Nat) (f : ViewRec → ViewRec) : Nat → ViewRec :=
  fun u => if u = vid then f (vs u) else vs u

/-- Dict lookup `index in self.cached_views` / `self.cached_views[index]`,
with a possibly negative Python index. -/
def cacheLookup (c : List (Nat × Nat)) (i : Int) : Option Nat :=
  match c.find? (fun kv => ((kv.1 : Int) == i)) with
  | some kv => some kv.2
  | Option.none => Option.none

/-- Dict store `self.cached_views[index] = item_view`, keeping the
association list sorted by key. -/
def cacheInsert : List (Nat × Nat) → Nat → Nat → List (Nat × Nat)
  | [], i, v => [(i, v)]
  | (k, u) :: rest, i, v =>
    if i < k then (i, v) :: (k, u) :: rest
    else if i = k then (i, v) :: rest
    else (k, u) :: cacheInsert rest i v

/-- `ListAdapter.get_data_item`: out-of-range access returns `None`. -/
def get_data_item (s : Adapter) (i : Int) : Option DataItem :=
  if i < 0 ∨ (s.data.length : Int) ≤ i then Option.none
  else s.data.get? i.toNat

/-- `ListAdapter.set_data_item_selection`, applied at the position of the
item (Python mutates the shared item object; the model writes the list
slot).  Items whose `is_selected` is a function are *called*, not
written; dicts are written with no key-presence guard
(`item['is_selected'] = value`), so a dict lacking the key has it
created and carries the flag from then on; any other item with no
`is_selected` is silently skipped (the chain has no `else` branch).  A
`None` item (out-of-range position) is also silently skipped, matching
the duck-typing chain applied to `None`. -/
def write_is_selected (l : List DataItem) (i : Int) (value : Bool) : List DataItem :=
  if i < 0 then l
  else
    match l.get? i.toNat with
    | Option.none => l
    | some item =>
      match item.kind with
      | .selectable _ => l.set i.toNat { item with kind := .selectable value }
      | .callableFlag _ => l
      | .plainDict => l.set i.toNat { item with kind := .selectable value }
      | .plain => l

/-- See `write_is_selected`: the method only ever changes `data`. -/
def set_data_item_selection (s : Adapter) (i : Int) (value : Bool) : Adapter :=
  { s with data := write_is_selected s.data i value }

/-- `ListAdapter.select_item_view`: display call, flag, append to the
selection list, then (optionally) propagation to the data item. -/
def select_item_view (s : Adapter) (vid : Nat) : Adapter :=
  let s1 : Adapter :=
    { s with
      views := updView s.views vid
        (fun v => { v with is_selected := true, selectCalls := v.selectCalls + 1 }),
      selection := s.selection ++ [vid] }
  if s1.propagate_selection_to_data then
    set_data_item_selection s1 ((s1.views vid).index : Int) true
  else s1

/-- `ListAdapter.deselect_item_view`: display call, flag, removal from the
selection list, then (optionally) propagation to the data item. -/
def deselect_item_view (s : Adapter) (vid : Nat) : Adapter :=
  let s1 : Adapter :=
    { s with
      views := updView s.views vid
        (fun v => { v with is_selected := false, deselectCalls := v.deselectCalls + 1 }),
      selection := s.selection.erase vid }
  if s1.propagate_selection_to_data then
    set_data_item_selection s1 ((s1.views vid).index : Int) false
  else s1

/-- Python's `for selected_view in self.selection: self.deselect_item_view(selected_view)`:
the loop reads positions 0,1,2,... of the live list while
`deselect_item_view` removes elements from it, so it skips every other
element.  `fuel` only needs to exceed the number of iterations. -/
def deselect_loop : Nat → Adapter → Nat → Adapter
  | 0, s, _ => s
  | fuel + 1, s, pos =>
    if pos < s.selection.length then
      deselect_loop fuel (deselect_item_view s (s.selection.getD pos 0)) (pos + 1)
    else s

/-- The deselect-everything loop as executed by Python (see
`deselect_loop`); initial fuel `length + 1` always suffices because each
iteration advances the position and shortens the list. -/
def python_deselect_all (s : Adapter) : Adapter :=
  deselect_loop (s.selection.length + 1) s 0

/-- Tags for the four mutually recursive adapter operations. -/
inductive Call where
  | hs (vid : Nat) (holdDispatch : Bool)
  | cfes
  | gv (i : Int)
  | cv (i : Int)

/-- Replace the value of a result by a created view id (used for
`create_view`'s return value after internal selection handling). -/
def withVid (r : PRes (Option Nat)) (vid : Nat) : PRes (Option Nat) :=
  match r with
  | .ok t _ => .ok t (some vid)
  | .exn t e => .exn t e

/-- The mode dispatch of `handle_selection`'s not-selected branch, after
the optional deselect-all loop produced `s1` (the mode, limit and
allow-empty flags are read from `self`, unchanged by that loop). -/
def hsSelectBranch (s : Adapter) (vid : Nat) (s1 : Adapter) : PRes (Option Nat) :=
  if s.selection_mode = .none then .ok s1 Option.none
  else if s.selection_mode = .multiple then
    if s.allow_empty_selection then
      if s.selection_limit < 0 then .ok (select_item_view s1 vid) Option.none
      else if (s1.selection.length : Int) < s.selection_limit then
        .ok (select_item_view s1 vid) Option.none
      else .ok s1 Option.none
    else .ok (select_item_view s1 vid) Option.none
  else .ok (select_item_view s1 vid) Option.none

/-- Body of `ListAdapter.handle_selection` (the on-selection-change
dispatch is not modelled).  `recur` is the next recursion level. -/
def hsBody (recur : Adapter → Call → PRes (Option Nat)) (s : Adapter)
    (vid : Nat) : PRes (Option Nat) :=
  if vid ∈ s.selection then
    if s.selection_mode ≠ .none then recur (deselect_item_view s vid) .cfes
    else .ok (deselect_item_view s vid) Option.none
  else
    hsSelectBranch s vid
      (if (s.selection_mode = .none ∨ s.selection_mode = .single) ∧
          0 < s.selection.length then
        python_deselect_all s
      else s)

/-- Body of `ListAdapter.check_for_empty_selection`. -/
def cfesBody (recur : Adapter → Call → PRes (Option Nat)) (s : Adapter) :
    PRes (Option Nat) :=
  if s.allow_empty_selection = false ∧ s.selection.length = 0 then
    match recur s (.gv 0) with
    | .exn t e => .exn t e
    | .ok t Option.none => .ok t Option.none
    | .ok t (some vid) => recur t (.hs vid false)
  else .ok s Option.none

/-- Body of `ListAdapter.get_view`. -/
def gvBody (recur : Adapter → Call → PRes (Option Nat)) (s : Adapter)
    (i : Int) : PRes (Option Nat) :=
  match cacheLookup s.cached_views i with
  | some vid => .ok s (some vid)
  | Option.none =>
    match recur s (.cv i) with
    | .exn t e => .exn t e
    | .ok t Option.none => .ok t Option.none
    | .ok t (some vid) =>
      .ok { t with cached_views := cacheInsert t.cached_views i.toNat vid }
        (some vid)

/-- Allocation of a fresh view record inside `create_view`
(`view_instance = self.cls(**item_args)` with `item_args['index'] = index`,
bound to the item at `i`). -/
def cvFresh (s : Adapter) (i : Int) (itemId : Nat) : Adapter :=
  { s with
    nextVid := s.nextVid + 1,
    views := updView s.views s.nextVid (fun _ => ⟨i.toNat, itemId, false, 0, 0⟩) }

/-- Body of `ListAdapter.create_view`: builds a fresh view for the item at
`i` (see `cvFresh`); when `propagate_selection_to_data` is set, reads the
item's selection flag and pre-selects the view through
`handle_selection`, raising for an unselectable item
(`raise Exception("ListAdapter: unselectable data item ...")`). -/
def cvBody (recur : Adapter → Call → PRes (Option Nat)) (s : Adapter)
    (i : Int) : PRes (Option Nat) :=
  match get_data_item s i with
  | Option.none => .ok s Option.none
  | some item =>
    if s.propagate_selection_to_data then
      match item.kind with
      | .selectable b =>
        if b then withVid (recur (cvFresh s i item.id) (.hs s.nextVid false)) s.nextVid
        else .ok (cvFresh s i item.id) (some s.nextVid)
      | .callableFlag b =>
        if b then withVid (recur (cvFresh s i item.id) (.hs s.nextVid false)) s.nextVid
        else .ok (cvFresh s i item.id) (some s.nextVid)
      | .plainDict => .exn (cvFresh s i item.id) .configError
      | .plain => .exn (cvFresh s i item.id) .configError
    else .ok (cvFresh s i item.id) (some s.nextVid)

/-- The four mutually recursive operations, combined into one function
structurally recursive on fuel (so that the kernel can evaluate it). -/
def run : Nat → Adapter → Call → PRes (Option Nat)
  | 0, s, _ => .exn s .fuelOut
  | fuel + 1, s, c =>
    match c with
    | .hs vid _ => hsBody (run fuel) s vid
    | .cfes => cfesBody (run fuel) s
    | .gv i => gvBody (run fuel) s i
    | .cv i => cvBody (run fuel) s i

/-- `ListAdapter.handle_selection` at a given recursion fuel. -/
def handle_selection (fuel : Nat) (s : Adapter) (vid : Nat) : PRes (Option Nat) :=
  run fuel s (.hs vid false)

/-- `ListAdapter.check_for_empty_selection` at a given recursion fuel. -/
def check_for_empty_selection (fuel : Nat) (s : Adapter) : PRes (Option Nat) :=
  run fuel s .cfes

/-- `ListAdapter.get_view` at a given recursion fuel. -/
def get_view (fuel : Nat) (s : Adapter) (i : Int) : PRes (Option Nat) :=
  run fuel s (.gv i)

/-- `ListAdapter.create_view` at a given recursion fuel. -/
def create_view (fuel : Nat) (s : Adapter) (i : Int) : PRes (Option Nat) :=
  run fuel s (.cv i)

/-- The cache-compaction loop of the `rool_delete` branch of
`ListAdapter.data_changed`: iterate the cache in key order; drop entries
whose key is in the deleted range; re-key every surviving entry to the
running counter `i`, and for surviving keys `k >= start_index` also
overwrite the view's `index` field with `i`. -/
def compact_delete : List (Nat × Nat) → Nat → Nat → Nat → (Nat → ViewRec) →
    List (Nat × Nat) × (Nat → ViewRec)
  | [], _, _, _, vs => ([], vs)
  | (k, vid) :: rest, st, en, i, vs =>
    if st ≤ k ∧ k ≤ en then compact_delete rest st en i vs
    else
      let vs1 := if st ≤ k then updView vs vid (fun v => { v with index := i }) else vs
      let r := compact_delete rest st en (i + 1) vs1
      ((i, vid) :: r.1, r.2)

/-- The selection-pruning loop of the `rool_delete` branch: iterate the
snapshot `[item.index for item in self.selection]`; for each index in
the deleted range execute `del self.selection[selected_index]`, which
deletes the selection list element at that *position* and raises
`IndexError` when the position is past the end of the (live) list. -/
def del_sel_loop (st en : Nat) : List Nat → Adapter → PRes (Option Nat)
  | [], s => .ok s Option.none
  | idx :: rest, s =>
    if st ≤ idx ∧ idx ≤ en then
      if idx < s.selection.length then
        del_sel_loop st en rest { s with selection := s.selection.eraseIdx idx }
      else .exn s .indexError
    else del_sel_loop st en rest s

/-- The `rool_delete` branch of `ListAdapter.data_changed` (the cache has
already been compacted when the selection snapshot is taken, and
`check_for_empty_selection` runs at the end). -/
def data_changed_delete (fuel : Nat) (s : Adapter) (st en : Nat) : PRes (Option Nat) :=
  let r := compact_delete s.cached_views st en 0 s.views
  let s1 : Adapter := { s with cached_views := r.1, views := r.2 }
  let snapshot := s1.selection.map (fun vid => (s1.views vid).index)
  match del_sel_loop st en snapshot s1 with
  | .exn t e => .exn t e
  | .ok t _ => run fuel t .cfes

/-- `RangeObservingObservableList.remove` of the item at position `i`
(`index = self.index(value)` is the first occurrence of the value)
followed by the adapter's `data_changed` reconciliation: the recorded
descriptor is `('rool_delete', (i, i))`, which matches the deleted
position. -/
def remove_op (fuel : Nat) (s : Adapter) (i : Nat) : PRes (Option Nat) :=
  data_changed_delete fuel
    { s with data := s.data.take i ++ s.data.drop (i + 1) } i i

/-- A slice delete `del data[st:en+1]` followed by the adapter's
`data_changed` reconciliation.  In Python 2 this calls
`__delslice__(st, en+1)`, which records
`('rool_delete', (st, en+1))` — the *exclusive* stop of the slice —
while `data_changed` reads the recorded pair as an inclusive range, so
the reconciliation processes indices `[st..en+1]`: one index beyond the
span actually deleted from the data. -/
def slice_delete_op (fuel : Nat) (s : Adapter) (st en : Nat) : PRes (Option Nat) :=
  data_changed_delete fuel
    { s with data := s.data.take st ++ s.data.drop (en + 1) } st (en + 1)

/-- `RangeObservingObservableList.append` followed by the adapter's
`data_changed` reconciliation: the `rool_add` branch is `pass`, so the
reconciliation changes nothing. -/
def append_op (s : Adapter) (item : DataItem) : Adapter :=
  { s with data := s.data ++ [item] }

/-- Insertion sort on data items by a boolean ordering (stand-in for
Python's `list.sort`). -/
def insertLe (le : DataItem → DataItem → Bool) (a : DataItem) :
    List DataItem → List DataItem
  | [] => [a]
  | b :: r => if le a b then a :: b :: r else b :: insertLe le a r

/-- Sorting the data list, see `insertLe`. -/
def sortLe (le : DataItem → DataItem → Bool) : List DataItem → List DataItem
  | [] => []
  | a :: r => insertLe le a (sortLe le r)

/-- The body of `RangeObservingObservableList.sort` before the actual
sort: `for i in self.cached_view_indices_and_data: self.cached_view_indices_and_data[i] = self.data[i]`.
The dict is empty in every reachable state (the adapter sets it to `{}`
in `__init__` and in the sort callback, and `data_will_be_sorted`, the
only code that would fill an association, is never called), so the loop
body never runs; if it did run it would raise `AttributeError`, because
an `ObservableList` has no `data` attribute. -/
def rool_sort_pre (s : Adapter) : PRes (Option Nat) :=
  match s.cached_view_indices_and_data with
  | [] => .ok s Option.none
  | _ :: _ => .exn s .attributeError

/-- The `rool_sort` branch of `ListAdapter.data_changed`:
`for item_view in self.cached_views:` iterates the *keys* (ints) of the
cache dict; the first key is looked up in `cached_view_indices_and_data`
(raising `KeyError` when absent, which is always, since that dict is
never populated); were the lookup to succeed, the subsequent
`item_view.index = ...` assignment on an int would raise
`AttributeError` (after `self.data.index(...)`, which itself raises
`ValueError` for an item not in the data). -/
def data_changed_sort (s : Adapter) : PRes (Option Nat) :=
  match s.cached_views with
  | [] => .ok { s with cached_view_indices_and_data := [] } Option.none
  | (k, _) :: _ =>
    match s.cached_view_indices_and_data.find? (fun p => p.1 == k) with
    | Option.none => .exn s .keyError
    | some p =>
      if p.2 ∈ s.data then .exn s .attributeError else .exn s .valueError

/-- `data.sort(...)` on the observed list followed by the adapter's
`data_changed` reconciliation for `('rool_sort', (0, len-1))`. -/
def sort_op (le : DataItem → DataItem → Bool) (s : Adapter) : PRes (Option Nat) :=
  match rool_sort_pre s with
  | .exn t e => .exn t e
  | .ok t _ => data_changed_sort { t with data := sortLe le t.data }

/-- `data.reverse()` on the observed list followed by the adapter's
`data_changed` reconciliation (reverse records the same `rool_sort`
descriptor as sort). -/
def reverse_op (s : Adapter) : PRes (Option Nat) :=
  data_changed_sort { s with data := s.data.reverse }

/-- `ListAdapter.selection_mode_changed`, fired after `selection_mode` is
assigned: mode `none` runs the deselect-everything loop, any other mode
re-runs `check_for_empty_selection`. -/
def set_selection_mode (fuel : Nat) (s : Adapter) (m : SelectionMode) :
    PRes (Option Nat) :=
  let s1 : Adapter := { s with selection_mode := m }
  if m = .none then .ok (python_deselect_all s1) Option.none
  else run fuel s1 .cfes

/-- The toggling loop of `ListAdapter.select_list` (each toggle is a
`handle_selection(view, hold_dispatch=True)` call; an exception aborts
the loop as in Python). -/
def toggle_fold (fuel : Nat) : List Nat → Adapter → PRes (Option Nat)
  | [], s => .ok s Option.none
  | v :: rest, s =>
    match run fuel s (.hs v true) with
    | .exn t e => .exn t e
    | .ok t _ => toggle_fold fuel rest t

/-- `ListAdapter.select_list`: with `extend=False` the selection list is
wholesale reassigned to `[]` (no deselect calls), then every view in
`view_list` is toggled. -/
def select_list (fuel : Nat) (s : Adapter) (view_list : List Nat)
    (extend : Bool) : PRes (Option Nat) :=
  let s1 : Adapter := if extend then s else { s with selection := [] }
  toggle_fold fuel view_list s1

/-- A sequence of separate top-level `handle_selection` calls: an
exception in one call propagates to that caller but the adapter state it
left behind persists, and the next call still happens. -/
def toggle_calls (fuel : Nat) : List Nat → Adapter → Adapter
  | [], s => s
  | v :: rest, s => toggle_calls fuel rest (resState (run fuel s (.hs v false)))

/-! Concrete adapter states used by the claim theorems. -/

/-- An adapter with all-default configuration and no data, as after
`ListAdapter.__init__` with empty data: mode `single`, no propagation,
`allow_empty_selection = True`, `selection_limit = -1`, empty cache and
selection. -/
def baseAdapter : Adapter :=
  { data := [], selection := [], selection_mode := .single,
    propagate_selection_to_data := false, allow_empty_selection := true,
    selection_limit := -1, cached_views := [], views := fun _ => default,
    nextVid := 100, cached_view_indices_and_data := [] }

/-- Five data items A..E (ids 0..4) with no selection capability. -/
def plainItems5 : List DataItem :=
  (List.range 5).map (fun i => ⟨i, .plain⟩)

/-- A view record at a given index over the item of the same id. -/
def mkViewRec (i : Nat) (sel : Bool) : ViewRec :=
  ⟨i, i, sel, 0, 0⟩

/-- The C2 scenario state: collection `[A,B,C,D,E]`, views for all five
indices cached (view id = index), index 2 (C) selected. -/
def adapterC2 : Adapter :=
  { baseAdapter with
    data := plainItems5,
    cached_views := (List.range 5).map (fun i => (i, i)),
    views := fun v => if v < 5 then mkViewRec v (decide (v = 2)) else default,
    selection := [2] }

/-- Claim C2: the claim is right and the code is wrong.  On the spec's own
scenario — collection `[A,B,C,D,E]`, index 2 selected, `del data[1:4]`
deleting the range `[1,3]` (recorded descriptor `(1, 4)`, the exclusive
stop) — `data_changed` executes `del self.selection[2]` (delete by
*position*, not removal of the view), and position 2 is past the end of
the one-element selection list, so the reconciliation raises
`IndexError` instead of removing the deleted view from the selection
(and never reaches the empty-selection re-selection step). -/
theorem C2_delete_selection_raises :
    errOf (slice_delete_op 5 adapterC2 1 3) = some .indexError := by
  rfl

/-- The C3 scenario state: empty collection, `allow_empty_selection = False`. -/
def adapterC3 : Adapter :=
  { baseAdapter with allow_empty_selection := false }

/-- Claim C3: the claim is right and the code is wrong.  Appending one
item to an empty collection with `allow_empty_selection = False` leaves
the selection empty: the `rool_add` branch of `data_changed` is `pass`
and `check_for_empty_selection` is not invoked, contradicting the
documented auto-initialized/always-maintained selection. -/
theorem C3_append_no_autoselect :
    (append_op adapterC3 ⟨0, .selectable false⟩).selection = [] ∧
      (append_op adapterC3 ⟨0, .selectable false⟩).data.length = 1 := by
  constructor <;> rfl

/-- The C4 scenario state: five items, views for all five indices cached. -/
def adapterC4 : Adapter :=
  { baseAdapter with
    data := plainItems5,
    cached_views := (List.range 5).map (fun i => (i, i)),
    views := fun v => if v < 5 then mkViewRec v false else default }

/-- Comparison of data items by id, used as the sort key. -/
def leById : DataItem → DataItem → Bool :=
  fun a b => Nat.ble a.id b.id

/-- Claim C4: the claim is right and the code is wrong.  Sorting a 5-item
collection whose views are all cached raises `KeyError` inside the
`rool_sort` branch: the temporary index-to-item association is never
recorded (`RangeObservingObservableList.sort` iterates the always-empty
`cached_view_indices_and_data`, and `data_will_be_sorted`, which was
meant to fill an association, is never called), and the branch then
looks the first cache key up in that empty dict.  No cached entry is
re-indexed and `get_view` can never return the pre-sort handles. -/
theorem C4_sort_reconciliation_raises :
    errOf (sort_op leById adapterC4) = some .keyError := by
  rfl

/-- The C6 scenario state: `selection_mode = multiple`,
`selection_limit = 2`, `allow_empty_selection = False`, views 1 and 2
already selected. -/
def adapterC6 : Adapter :=
  { baseAdapter with
    selection_mode := .multiple, allow_empty_selection := false,
    selection_limit := 2, selection := [1, 2],
    views := fun v => mkViewRec v (decide (v = 1 ∨ v = 2)) }

/-- Claim C6: the claim is right and the code is wrong.  With
`selection_mode = multiple` and `selection_limit = 2` but
`allow_empty_selection = False`, toggling a third, unselected view grows
the selection to size 3: `handle_selection` consults `selection_limit`
only inside the `if self.allow_empty_selection:` branch and selects
unconditionally otherwise, contradicting the `selection_limit`
docstring ("this number will limit the number of selected items"). -/
theorem C6_limit_ignored :
    (resState (handle_selection 2 adapterC6 3)).selection = [1, 2, 3] := by
  rfl

/-- The C7 scenario state: two views selected, mode `single`. -/
def adapterC7 : Adapter :=
  { baseAdapter with
    selection := [1, 2],
    views := fun v => mkViewRec v (decide (v = 1 ∨ v = 2)) }

/-- Claim C7: the claim is right and the code is wrong.  Changing
`selection_mode` to `none` with two selected views leaves one of them
selected: `selection_mode_changed` iterates `self.selection` while
`deselect_item_view` removes from the same list, so the loop skips every
other element — view 2 stays in the selection with its selected flag
set, contradicting "deselect everything". -/
theorem C7_mode_none_leaves_selection :
    (resState (set_selection_mode 1 adapterC7 .none)).selection = [2] ∧
      ((resState (set_selection_mode 1 adapterC7 .none)).views 2).is_selected = true := by
  constructor <;> rfl

/-- Claim C1, counterexample: `del data[1:4]` on `[A,B,C,D,E]` with all
five views cached deletes exactly `[1,3]` from the data (B, C, D; A and
E remain), so the claim requires E's surviving cache entry (old index 4
= e+1) to be present under index `4 - 3 = 1` with its view's index
field 1.  The code instead records the descriptor `(1, 4)` (the
exclusive slice stop) and evicts cache keys `[1..4]`, so E's view is
dropped from the cache entirely: the reconciled cache is `{0: viewA}`
and key 1 maps to nothing. -/
theorem C1_counterexample :
    errOf (slice_delete_op 3 adapterC4 1 3) = Option.none ∧
      (resState (slice_delete_op 3 adapterC4 1 3)).cached_views = [(0, 0)] ∧
      cacheLookup (resState (slice_delete_op 3 adapterC4 1 3)).cached_views 1 =
        Option.none ∧
      (resState (slice_delete_op 3 adapterC4 1 3)).data =
        [⟨0, .plain⟩, ⟨4, .plain⟩] := by
  refine ⟨rfl, rfl, rfl, rfl⟩

/-- The C9 counterexample state: `propagate_selection_to_data = True`, a
single non-dict data item with no `is_selected` capability, a view
(id 7) for index 0. -/
def adapterC9 : Adapter :=
  { baseAdapter with
    propagate_selection_to_data := true,
    data := [⟨0, .plain⟩],
    views := fun v => if v = 7 then mkViewRec 0 false else default }

/-- Claim C9, counterexample: with propagation enabled, selecting a view
whose (non-dict) data item exposes no selection flag completes
normally — the view is appended to the selection and no error is
raised — and the item is left untouched: `set_data_item_selection`'s
duck-typing chain has no `else` branch, so the write is silently
ignored rather than reported (a flagless *dict* is instead silently
written, see `C9_amended`; in neither case is an error reported). -/
theorem C9_counterexample :
    (select_item_view adapterC9 7).data = [⟨0, .plain⟩] ∧
      (select_item_view adapterC9 7).selection = [7] := by
  constructor <;> rfl

/-- The C10 counterexample state: view 0 is selected, cached at index 0,
with one prior `select()` display call; `allow_empty_selection = False`,
mode `single`. -/
def adapterC10 : Adapter :=
  { baseAdapter with
    allow_empty_selection := false,
    data := [⟨0, .plain⟩],
    cached_views := [(0, 0)],
    views := fun v => if v = 0 then ⟨0, 0, true, 1, 0⟩ else mkViewRec 0 false,
    selection := [0] }

/-- Claim C10, counterexample: `select_list([w, w], extend=False)` with a
duplicated entry first selects `w`, then toggles it off, and the
deselection triggers `check_for_empty_selection`, which re-selects the
previously selected view 0 through `get_view(0)`: view 0 ends up back in
the selection list and its `select()` display method is called a second
time, so its display state is not left untouched as the claim states. -/
theorem C10_counterexample :
    ((resState (select_list 6 adapterC10 [1, 1] false)).views 0).selectCalls = 2 ∧
      (resState (select_list 6 adapterC10 [1, 1] false)).selection = [0] := by
  constructor <;> rfl

/-- Claim C8: for any index outside `[0, item_count())` — negative or too
large — `get_data_item` returns `None`, and `get_view` returns `None`
without raising and without touching the adapter state, provided every
cached key is a valid index (the spec's View Cache invariant), so that
the cache lookup cannot hit a stale out-of-range entry.  This covers the
empty collection, where every index is out of range. -/
theorem C8_out_of_range (s : Adapter) (i : Int) (fuel : Nat)
    (hcache : ∀ p ∈ s.cached_views, ((p.1 : Int) < (s.data.length : Int)))
    (hi : i < 0 ∨ (s.data.length : Int) ≤ i) :
    get_data_item s i = Option.none ∧
      run (fuel + 2) s (.gv i) = .ok s Option.none := by
  have hgdi : get_data_item s i = Option.none := by
    unfold get_data_item
    exact if_pos hi
  refine ⟨hgdi, ?_⟩
  have hfind : s.cached_views.find? (fun kv => ((kv.1 : Int) == i)) = Option.none := by
    apply List.find?_eq_none.mpr
    intro p hp
    simp only [beq_iff_eq]
    intro he
    rcases hi with h | h
    · have hnn : (0 : Int) ≤ (p.1 : Int) := Int.ofNat_nonneg _
      omega
    · have hlt := hcache p hp
      omega
  show run (fuel + 1 + 1) s (.gv i) = .ok s Option.none
  simp only [run, gvBody, cacheLookup, hfind, cvBody, hgdi]

/-- Claim C8, witness: on the empty base adapter, index 5 is out of range
and both accessors return an absent result. -/
theorem C8_witness :
    get_data_item baseAdapter 5 = Option.none ∧
      run 2 baseAdapter (.gv 5) = .ok baseAdapter Option.none :=
  C8_out_of_range baseAdapter 5 0
    (by intro p hp; simp [baseAdapter] at hp) (Or.inr (by decide))

/-- Applying a point update of the view store at the updated id. -/
theorem updView_same (vs : Nat → ViewRec) (vid : Nat) (f : ViewRec → ViewRec) :
    updView vs vid f vid = f (vs vid) := by
  simp [updView]

/-- Applying a point update of the view store at a different id. -/
theorem updView_other (vs : Nat → ViewRec) (vid u : Nat) (f : ViewRec → ViewRec)
    (h : u ≠ vid) : updView vs vid f u = vs u := by
  simp [updView, h]

/-- The data component of a select: written via `write_is_selected` at the
view's index exactly when propagation is on. -/
theorem select_item_view_data (s : Adapter) (vid : Nat) :
    (select_item_view s vid).data =
      if s.propagate_selection_to_data then
        write_is_selected s.data ((s.views vid).index : Int) true
      else s.data := by
  unfold select_item_view set_data_item_selection
  by_cases h : s.propagate_selection_to_data <;> simp [h, updView]

/-- The data component of a deselect, dually to `select_item_view_data`. -/
theorem deselect_item_view_data (s : Adapter) (vid : Nat) :
    (deselect_item_view s vid).data =
      if s.propagate_selection_to_data then
        write_is_selected s.data ((s.views vid).index : Int) false
      else s.data := by
  unfold deselect_item_view set_data_item_selection
  by_cases h : s.propagate_selection_to_data <;> simp [h, updView]

/-- The selection-flag write on an item that exposes a boolean flag. -/
theorem write_is_selected_selectable (l : List DataItem) (n : Nat)
    (it : DataItem) (b v : Bool) (hget : l.get? n = some it)
    (hk : it.kind = .selectable b) :
    write_is_selected l (n : Int) v = l.set n ⟨it.id, .selectable v⟩ := by
  unfold write_is_selected
  rw [if_neg (by omega), Int.toNat_natCast]
  rw [List.get?_eq_getElem?] at hget
  simp [hget, hk]

/-- The selection-flag write on a non-dict item with no flag is a silent
no-op. -/
theorem write_is_selected_plain (l : List DataItem) (n : Nat)
    (it : DataItem) (v : Bool) (hget : l.get? n = some it)
    (hk : it.kind = .plain) :
    write_is_selected l (n : Int) v = l := by
  unfold write_is_selected
  rw [if_neg (by omega), Int.toNat_natCast]
  rw [List.get?_eq_getElem?] at hget
  simp [hget, hk]

/-- The selection-flag write on a dict without the key silently creates
the key: the item carries the flag from then on. -/
theorem write_is_selected_plainDict (l : List DataItem) (n : Nat)
    (it : DataItem) (v : Bool) (hget : l.get? n = some it)
    (hk : it.kind = .plainDict) :
    write_is_selected l (n : Int) v = l.set n ⟨it.id, .selectable v⟩ := by
  unfold write_is_selected
  rw [if_neg (by omega), Int.toNat_natCast]
  rw [List.get?_eq_getElem?] at hget
  simp [hget, hk]

/-- Reading back a written slot. -/
theorem get?_set_same (l : List DataItem) (n : Nat) (it a : DataItem)
    (hget : l.get? n = some it) : (l.set n a).get? n = some a := by
  rw [List.get?_eq_getElem?] at hget ⊢
  rw [List.getElem?_set_self', hget]
  rfl

/-- Claim C9, as amended: with `propagate_selection_to_data = true`,
(1) every select and every deselect of a view whose data item exposes a
plain boolean selection flag writes `True` resp. `False` onto that item;
(2) a select or deselect of a view whose data item is a non-dict object
with no selection flag leaves the data untouched and completes without
error (the write is silently skipped, not reported); (3) a select or
deselect of a view whose data item is a dict *without* an `is_selected`
key silently creates the key and writes the flag (no error either); (4)
the configuration error for an unselectable item — a flagless non-dict
object or a flagless dict — is reported only at view-construction time:
`create_view` raises for it when propagation is requested. -/
theorem C9_amended :
    (∀ (s : Adapter) (vid : Nat) (it : DataItem) (b : Bool),
        s.propagate_selection_to_data = true →
        s.data.get? (s.views vid).index = some it →
        it.kind = .selectable b →
        (select_item_view s vid).data.get? (s.views vid).index =
            some ⟨it.id, .selectable true⟩ ∧
          (deselect_item_view s vid).data.get? (s.views vid).index =
            some ⟨it.id, .selectable false⟩) ∧
    (∀ (s : Adapter) (vid : Nat) (it : DataItem),
        s.data.get? (s.views vid).index = some it →
        it.kind = .plain →
        (select_item_view s vid).data = s.data ∧
          (deselect_item_view s vid).data = s.data) ∧
    (∀ (s : Adapter) (vid : Nat) (it : DataItem),
        s.propagate_selection_to_data = true →
        s.data.get? (s.views vid).index = some it →
        it.kind = .plainDict →
        (select_item_view s vid).data.get? (s.views vid).index =
            some ⟨it.id, .selectable true⟩ ∧
          (deselect_item_view s vid).data.get? (s.views vid).index =
            some ⟨it.id, .selectable false⟩) ∧
    (∀ (fuel : Nat) (s : Adapter) (i : Int) (it : DataItem),
        s.propagate_selection_to_data = true →
        get_data_item s i = some it →
        it.kind = .plain ∨ it.kind = .plainDict →
        errOf (run (fuel + 1) s (.cv i)) = some .configError) := by
  refine ⟨?_, ?_, ?_, ?_⟩
  · intro s vid it b hprop hget hk
    rw [select_item_view_data, deselect_item_view_data, hprop]
    simp only [eq_self_iff_true, if_true]
    rw [write_is_selected_selectable s.data _ it b true hget hk,
      write_is_selected_selectable s.data _ it b false hget hk]
    exact ⟨get?_set_same _ _ it _ hget, get?_set_same _ _ it _ hget⟩
  · intro s vid it hget hk
    rw [select_item_view_data, deselect_item_view_data]
    by_cases hprop : s.propagate_selection_to_data
    · rw [if_pos hprop, if_pos hprop,
        write_is_selected_plain s.data _ it true hget hk,
        write_is_selected_plain s.data _ it false hget hk]
      exact ⟨rfl, rfl⟩
    · rw [if_neg hprop, if_neg hprop]
      exact ⟨rfl, rfl⟩
  · intro s vid it hprop hget hk
    rw [select_item_view_data, deselect_item_view_data, hprop]
    simp only [eq_self_iff_true, if_true]
    rw [write_is_selected_plainDict s.data _ it true hget hk,
      write_is_selected_plainDict s.data _ it false hget hk]
    exact ⟨get?_set_same _ _ it _ hget, get?_set_same _ _ it _ hget⟩
  · intro fuel s i it hprop hget hk
    show errOf (cvBody (run fuel) s i) = some .configError
    unfold cvBody
    rcases hk with hk | hk <;> simp only [hget, hprop, hk, if_true] <;> rfl

/-- An adapter whose single data item carries a boolean selection flag,
used to witness the write clauses of the amended C9. -/
def adapterC9flag : Adapter :=
  { baseAdapter with
    propagate_selection_to_data := true,
    data := [⟨3, .selectable false⟩],
    views := fun _ => mkViewRec 0 false }

/-- An adapter whose single data item is a dict without an `is_selected`
key, used to witness the dict-write clause of the amended C9. -/
def adapterC9dict : Adapter :=
  { baseAdapter with
    propagate_selection_to_data := true,
    data := [⟨5, .plainDict⟩],
    views := fun _ => mkViewRec 0 false }

/-- Claim C9, witness: the four clauses of the amended claim applied at
concrete states — a flagged item is written on select and deselect, a
flagless non-dict item is silently skipped, a flagless dict has its key
silently created, and `create_view` raises for both kinds of flagless
item when propagation is on. -/
theorem C9_witness :
    ((select_item_view adapterC9flag 0).data.get?
          (adapterC9flag.views 0).index = some ⟨3, .selectable true⟩ ∧
        (deselect_item_view adapterC9flag 0).data.get?
          (adapterC9flag.views 0).index = some ⟨3, .selectable false⟩) ∧
      ((select_item_view adapterC9 7).data = adapterC9.data ∧
        (deselect_item_view adapterC9 7).data = adapterC9.data) ∧
      ((select_item_view adapterC9dict 0).data.get?
          (adapterC9dict.views 0).index = some ⟨5, .selectable true⟩ ∧
        (deselect_item_view adapterC9dict 0).data.get?
          (adapterC9dict.views 0).index = some ⟨5, .selectable false⟩) ∧
      errOf (run 1 adapterC9 (.cv 0)) = some .configError ∧
      errOf (run 1 adapterC9dict (.cv 0)) = some .configError :=
  ⟨C9_amended.1 adapterC9flag 0 ⟨3, .selectable false⟩ false rfl rfl rfl,
    C9_amended.2.1 adapterC9 7 ⟨0, .plain⟩ rfl rfl,
    C9_amended.2.2.1 adapterC9dict 0 ⟨5, .plainDict⟩ rfl rfl rfl,
    C9_amended.2.2.2 0 adapterC9 0 ⟨0, .plain⟩ rfl rfl (Or.inl rfl),
    C9_amended.2.2.2 0 adapterC9dict 0 ⟨5, .plainDict⟩ rfl rfl (Or.inr rfl)⟩

/-- Selecting appends the view to the selection list. -/
theorem select_item_view_sel (s : Adapter) (vid : Nat) :
    (select_item_view s vid).selection = s.selection ++ [vid] := by
  unfold select_item_view set_data_item_selection
  by_cases h : s.propagate_selection_to_data <;> simp [h]

/-- Selecting preserves the selection mode. -/
theorem select_item_view_mode (s : Adapter) (vid : Nat) :
    (select_item_view s vid).selection_mode = s.selection_mode := by
  unfold select_item_view set_data_item_selection
  by_cases h : s.propagate_selection_to_data <;> simp [h]

/-- Deselecting erases the view from the selection list. -/
theorem deselect_item_view_sel (s : Adapter) (vid : Nat) :
    (deselect_item_view s vid).selection = s.selection.erase vid := by
  unfold deselect_item_view set_data_item_selection
  by_cases h : s.propagate_selection_to_data <;> simp [h]

/-- Deselecting preserves the selection mode. -/
theorem deselect_item_view_mode (s : Adapter) (vid : Nat) :
    (deselect_item_view s vid).selection_mode = s.selection_mode := by
  unfold deselect_item_view set_data_item_selection
  by_cases h : s.propagate_selection_to_data <;> simp [h]

/-- A member of a list of length at most one is its only element. -/
theorem mem_len_le_one {l : List Nat} {a : Nat} (h : a ∈ l)
    (hl : l.length ≤ 1) : l = [a] := by
  cases l with
  | nil => cases h
  | cons b t =>
    cases t with
    | nil => simp only [List.mem_singleton] at h; rw [h]
    | cons c u => simp at hl

/-- The deselect-everything loop on an empty selection is the identity. -/
theorem python_deselect_all_nil (s : Adapter) (hsel : s.selection = []) :
    python_deselect_all s = s := by
  have hc : ¬ 0 < s.selection.length := by rw [hsel]; decide
  unfold python_deselect_all
  rw [hsel]
  show deselect_loop 1 s 0 = s
  unfold deselect_loop
  rw [if_neg hc]

/-- The deselect-everything loop on a one-element selection deselects
that element (no skipping occurs at length one). -/
theorem python_deselect_all_single (s : Adapter) (v : Nat)
    (hsel : s.selection = [v]) :
    python_deselect_all s = deselect_item_view s v := by
  have h1 : s.selection.getD 0 0 = v := by rw [hsel]; rfl
  have h2 : (deselect_item_view s v).selection = [] := by
    rw [deselect_item_view_sel, hsel]
    simp
  have hc : 0 < s.selection.length := by rw [hsel]; simp
  have hc2 : ¬ 1 < (deselect_item_view s v).selection.length := by
    rw [h2]; simp
  unfold python_deselect_all
  rw [hsel]
  show deselect_loop 2 s 0 = deselect_item_view s v
  unfold deselect_loop
  rw [if_pos hc, h1]
  unfold deselect_loop
  rw [if_neg hc2]

/-- The state of a `withVid`-wrapped result. -/
theorem resState_withVid (r : PRes (Option Nat)) (vid : Nat) :
    resState (withVid r vid) = resState r := by
  cases r <;> rfl

/-- The select branch of `handle_selection` in `single` mode always
selects the view. -/
theorem hsSelectBranch_single (s : Adapter) (vid : Nat) (s1 : Adapter)
    (hm : s.selection_mode = .single) :
    hsSelectBranch s vid s1 = .ok (select_item_view s1 vid) Option.none := by
  unfold hsSelectBranch
  rw [if_neg (by rw [hm]; decide), if_neg (by rw [hm]; decide)]

/-- Unfolding of `create_view`'s body once the data item is known. -/
theorem cvBody_some (recur : Adapter → Call → PRes (Option Nat)) (s : Adapter)
    (i : Int) (item : DataItem) (hget : get_data_item s i = some item) :
    cvBody recur s i =
      if s.propagate_selection_to_data then
        match item.kind with
        | .selectable b =>
          if b then withVid (recur (cvFresh s i item.id) (.hs s.nextVid false)) s.nextVid
          else .ok (cvFresh s i item.id) (some s.nextVid)
        | .callableFlag b =>
          if b then withVid (recur (cvFresh s i item.id) (.hs s.nextVid false)) s.nextVid
          else .ok (cvFresh s i item.id) (some s.nextVid)
        | .plainDict => .exn (cvFresh s i item.id) .configError
        | .plain => .exn (cvFresh s i item.id) .configError
      else .ok (cvFresh s i item.id) (some s.nextVid) := by
  unfold cvBody
  rw [hget]

/-- Fuel induction for claim C5: in `single` mode, every one of the four
mutually recursive operations preserves the invariant "at most one view
selected" (and the mode itself, which none of them writes). -/
theorem run_single_invariant (fuel : Nat) :
    ∀ (s : Adapter) (c : Call),
      s.selection_mode = .single → s.selection.length ≤ 1 →
      (resState (run fuel s c)).selection_mode = .single ∧
        (resState (run fuel s c)).selection.length ≤ 1 := by
  induction fuel with
  | zero => intro s c hm hl; exact ⟨hm, hl⟩
  | succ n ih =>
    intro s c hm hl
    cases c with
    | hs vid hold =>
      rw [show run (n + 1) s (.hs vid hold) = hsBody (run n) s vid from rfl]
      unfold hsBody
      by_cases hmem : vid ∈ s.selection
      · rw [if_pos hmem, if_pos (by rw [hm]; decide)]
        have hone := mem_len_le_one hmem hl
        refine ih _ .cfes ?_ ?_
        · rw [deselect_item_view_mode, hm]
        · rw [deselect_item_view_sel, hone]
          simp
      · rw [if_neg hmem, hsSelectBranch_single s vid _ hm]
        have hnew : ∀ t : Adapter, t.selection_mode = .single →
            t.selection.length = 0 →
            (resState (.ok (select_item_view t vid) (Option.none : Option Nat))).selection_mode
                = .single ∧
              (resState (.ok (select_item_view t vid) (Option.none : Option Nat))).selection.length
                ≤ 1 := by
          intro t hmt hlt
          constructor
          · rw [show resState (.ok (select_item_view t vid) (Option.none : Option Nat)) =
              select_item_view t vid from rfl, select_item_view_mode, hmt]
          · rw [show resState (.ok (select_item_view t vid) (Option.none : Option Nat)) =
              select_item_view t vid from rfl, select_item_view_sel,
              List.length_append, hlt]
            simp
        have hsplit : s.selection.length = 0 ∨ s.selection.length = 1 := by omega
        cases hsplit with
        | inl h0 =>
          rw [if_neg (fun hcon => absurd hcon.2 (by omega))]
          exact hnew s hm h0
        | inr h1 =>
          obtain ⟨u, hu⟩ : ∃ u, s.selection = [u] := by
            cases hsel : s.selection with
            | nil => rw [hsel] at h1; simp at h1
            | cons a t =>
              refine ⟨a, ?_⟩
              rw [hsel] at h1
              simp at h1
              rw [h1]
          rw [if_pos ⟨Or.inr hm, by omega⟩, python_deselect_all_single s u hu]
          apply hnew
          · rw [deselect_item_view_mode, hm]
          · rw [deselect_item_view_sel, hu]
            simp
    | cfes =>
      rw [show run (n + 1) s .cfes = cfesBody (run n) s from rfl]
      unfold cfesBody
      by_cases hcond : s.allow_empty_selection = false ∧ s.selection.length = 0
      · rw [if_pos hcond]
        have H := ih s (.gv 0) hm hl
        cases hres : run n s (.gv 0) with
        | exn t e =>
          rw [hres] at H
          exact H
        | ok t v =>
          rw [hres] at H
          cases v with
          | none => exact H
          | some vid => exact ih t (.hs vid false) H.1 H.2
      · rw [if_neg hcond]
        exact ⟨hm, hl⟩
    | gv i =>
      rw [show run (n + 1) s (.gv i) = gvBody (run n) s i from rfl]
      unfold gvBody
      cases hlook : cacheLookup s.cached_views i with
      | some vid => exact ⟨hm, hl⟩
      | none =>
        have H := ih s (.cv i) hm hl
        cases hres : run n s (.cv i) with
        | exn t e =>
          rw [hres] at H
          exact H
        | ok t v =>
          rw [hres] at H
          cases v with
          | none => exact H
          | some vid => exact H
    | cv i =>
      rw [show run (n + 1) s (.cv i) = cvBody (run n) s i from rfl]
      cases hget : get_data_item s i with
      | none =>
        unfold cvBody
        rw [hget]
        exact ⟨hm, hl⟩
      | some item =>
        rw [cvBody_some (run n) s i item hget]
        have hfresh : ∀ d : Nat, (cvFresh s i d).selection_mode = .single ∧
            (cvFresh s i d).selection.length ≤ 1 := fun d => ⟨hm, hl⟩
        by_cases hprop : s.propagate_selection_to_data = true
        · rw [if_pos hprop]
          cases hk : item.kind with
          | selectable b =>
            cases b with
            | true =>
              simp only [eq_self_iff_true, if_true, resState_withVid]
              exact ih _ (.hs s.nextVid false) (hfresh item.id).1 (hfresh item.id).2
            | false =>
              simp only [Bool.false_eq_true, if_false]
              exact hfresh item.id
          | callableFlag b =>
            cases b with
            | true =>
              simp only [eq_self_iff_true, if_true, resState_withVid]
              exact ih _ (.hs s.nextVid false) (hfresh item.id).1 (hfresh item.id).2
            | false =>
              simp only [Bool.false_eq_true, if_false]
              exact hfresh item.id
          | plainDict => exact hfresh item.id
          | plain => exact hfresh item.id
        · rw [if_neg hprop]
          exact hfresh item.id

/-- The toggle-sequence fold preserves the single-mode invariant. -/
theorem toggle_calls_invariant (fuel : Nat) (vids : List Nat) :
    ∀ s : Adapter, s.selection_mode = .single → s.selection.length ≤ 1 →
      (toggle_calls fuel vids s).selection_mode = .single ∧
        (toggle_calls fuel vids s).selection.length ≤ 1 := by
  induction vids with
  | nil => intro s hm hl; exact ⟨hm, hl⟩
  | cons v rest ih =>
    intro s hm hl
    have H := run_single_invariant fuel s (.hs v false) hm hl
    exact ih _ H.1 H.2

/-- Claim C5: with `selection_mode = single`, after any finite sequence of
`handle_selection` toggle calls starting from an empty selection — at
any recursion fuel, over any collection, cache, propagation and
empty-selection configuration — the selection holds at most one view. -/
theorem C5_single_mode_bound (fuel : Nat) (vids : List Nat) (s : Adapter)
    (hm : s.selection_mode = .single) (hs : s.selection = []) :
    (toggle_calls fuel vids s).selection.length ≤ 1 :=
  (toggle_calls_invariant fuel vids s hm (by rw [hs]; decide)).2

/-- Claim C5, witness: five toggles (with repeats) on a five-item
adapter starting from an empty selection. -/
theorem C5_witness :
    (toggle_calls 6 [3, 4, 5, 3, 3]
        { baseAdapter with data := plainItems5 }).selection.length ≤ 1 :=
  C5_single_mode_bound 6 [3, 4, 5, 3, 3]
    { baseAdapter with data := plainItems5 } rfl rfl

/-- Survival of a cache key under a delete of the inclusive range
`[st, en]`. -/
def delSurvives (st en k : Nat) : Bool :=
  decide (k < st ∨ en < k)

/-- The key a surviving cache entry ends up under after the delete of
`[st, en]`, when the cache is a full prefix: unchanged below `st`,
shifted down by the length of the deleted range above `en`. -/
def expectedKeyAfterDel (st en k : Nat) : Nat :=
  if k < st then k else k - (en + 1 - st)

/-- The compaction loop distributes over list append, threading the
counter and the view store. -/
theorem compact_delete_append (st en : Nat) (l1 l2 : List (Nat × Nat)) :
    ∀ (i : Nat) (vs : Nat → ViewRec),
      compact_delete (l1 ++ l2) st en i vs =
        ((compact_delete l1 st en i vs).1 ++
            (compact_delete l2 st en
              (i + (compact_delete l1 st en i vs).1.length)
              (compact_delete l1 st en i vs).2).1,
          (compact_delete l2 st en
            (i + (compact_delete l1 st en i vs).1.length)
            (compact_delete l1 st en i vs).2).2) := by
  induction l1 with
  | nil => intro i vs; simp [compact_delete]
  | cons hd t ih =>
    intro i vs
    obtain ⟨k, u⟩ := hd
    by_cases hdel : st ≤ k ∧ k ≤ en
    · simp only [List.cons_append, compact_delete, if_pos hdel]
      exact ih i vs
    · simp only [List.cons_append, compact_delete, if_neg hdel, List.append_eq]
      rw [ih (i + 1)]
      rw [show ∀ (L : List (Nat × Nat)), ((i, u) :: L).length = L.length + 1
        from fun L => rfl]
      generalize compact_delete t st en (i + 1)
        (if st ≤ k then updView vs u (fun v => { v with index := i }) else vs) = A
      rw [show i + (A.1.length + 1) = (i + 1) + A.1.length from by omega]

/-- The compaction loop on a single cache entry. -/
theorem compact_delete_single (st en i k u : Nat) (vs : Nat → ViewRec) :
    compact_delete [(k, u)] st en i vs =
      if st ≤ k ∧ k ≤ en then ([], vs)
      else ([(i, u)],
        if st ≤ k then updView vs u (fun v => { v with index := i }) else vs) := by
  by_cases hdel : st ≤ k ∧ k ≤ en
  · simp [compact_delete, hdel]
  · by_cases hst : st ≤ k <;> simp [compact_delete, hdel, hst]

/-- How many of the keys `0..m-1` survive the delete of `[st, en]`. -/
theorem survCount (st en : Nat) (hse : st ≤ en) (m : Nat) :
    ((List.range m).filter (delSurvives st en)).length =
      if m ≤ st then m else if m ≤ en + 1 then st else m - (en + 1 - st) := by
  induction m with
  | zero => simp
  | succ m ih =>
    rw [List.range_succ, List.filter_append, List.length_append, ih]
    by_cases h1 : delSurvives st en m = true
    · rw [show (List.filter (delSurvives st en) [m]).length = 1 by
        simp [h1]]
      have h2 : m < st ∨ en < m := by
        have := h1
        unfold delSurvives at this
        exact of_decide_eq_true this
      rcases h2 with h2 | h2 <;> split_ifs <;> omega
    · rw [show (List.filter (delSurvives st en) [m]).length = 0 by
        simp only [List.filter, h1]; rfl]
      have h2 : st ≤ m ∧ m ≤ en := by
        have h3 : ¬ (m < st ∨ en < m) := fun hc => h1 (by
          unfold delSurvives
          exact decide_eq_true hc)
        omega
      split_ifs <;> omega

/-- A surviving key `m` lands exactly at the position given by the number
of surviving keys below it. -/
theorem survCount_expectedKey (st en : Nat) (hse : st ≤ en) (m : Nat)
    (hsurv : m < st ∨ en < m) :
    ((List.range m).filter (delSurvives st en)).length =
      expectedKeyAfterDel st en m := by
  rw [survCount st en hse m]
  unfold expectedKeyAfterDel
  rcases hsurv with h | h <;> split_ifs <;> omega

/-- A well-formed ("canonical") cache: entries at exactly the keys
`0..m-1`, with `vid k` the view cached at key `k`. -/
def canonCache (vid : Nat → Nat) (m : Nat) : List (Nat × Nat) :=
  (List.range m).map (fun k => (k, vid k))

/-- Characterization of the delete-branch compaction loop on a canonical
cache: the new cache holds exactly the surviving keys re-keyed by
`expectedKeyAfterDel`, the views of surviving keys above the deleted
range get that new key as their `index`, the views of keys below the
range are untouched, and so is every view not cached at a surviving
key at or above `start_index`. -/
theorem compact_delete_canonical (st en : Nat) (hse : st ≤ en) :
    ∀ (m : Nat) (vid : Nat → Nat) (vs : Nat → ViewRec),
      (∀ k1 k2, k1 < m → k2 < m → vid k1 = vid k2 → k1 = k2) →
      (compact_delete (canonCache vid m) st en 0 vs).1 =
          ((List.range m).filter (delSurvives st en)).map
            (fun k => (expectedKeyAfterDel st en k, vid k)) ∧
        (∀ k, k < m → en < k →
          (compact_delete (canonCache vid m) st en 0 vs).2 (vid k) =
            { vs (vid k) with index := expectedKeyAfterDel st en k }) ∧
        (∀ k, k < m → k < st →
          (compact_delete (canonCache vid m) st en 0 vs).2 (vid k) = vs (vid k)) ∧
        (∀ u, (∀ k, k < m → vid k ≠ u) →
          (compact_delete (canonCache vid m) st en 0 vs).2 u = vs u) := by
  intro m
  induction m with
  | zero =>
    intro vid vs hinj
    refine ⟨by simp [canonCache, compact_delete], ?_, ?_, ?_⟩
    · intro k hk; omega
    · intro k hk; omega
    · intro u hu; rfl
  | succ m ih =>
    intro vid vs hinj
    have hinj' : ∀ k1 k2, k1 < m → k2 < m → vid k1 = vid k2 → k1 = k2 :=
      fun k1 k2 h1 h2 he => hinj k1 k2 (by omega) (by omega) he
    obtain ⟨IH1, IH2, IH3, IH4⟩ := ih vid vs hinj'
    have hne : ∀ k, k < m → vid k ≠ vid m := by
      intro k hk he
      have := hinj k m (by omega) (by omega) he
      omega
    have hcanon : canonCache vid (m + 1) = canonCache vid m ++ [(m, vid m)] := by
      unfold canonCache
      rw [List.range_succ, List.map_append]
      rfl
    rw [hcanon, compact_delete_append st en (canonCache vid m) [(m, vid m)] 0 vs]
    rw [compact_delete_single]
    by_cases hdel : st ≤ m ∧ m ≤ en
    · rw [if_pos hdel]
      have hfm : delSurvives st en m = false :=
        decide_eq_false (by omega)
      have hfilt : (List.range (m + 1)).filter (delSurvives st en) =
          (List.range m).filter (delSurvives st en) := by
        rw [List.range_succ, List.filter_append]
        simp [List.filter_singleton, hfm]
      refine ⟨?_, ?_, ?_, ?_⟩
      · rw [hfilt, List.append_nil]
        exact IH1
      · intro k hk hen
        have hkm : k < m := by omega
        exact IH2 k hkm hen
      · intro k hk hst
        have hkm : k < m := by omega
        exact IH3 k hkm hst
      · intro u hu
        exact IH4 u (fun k hk => hu k (by omega))
    · rw [if_neg hdel]
      have hsurv : m < st ∨ en < m := by omega
      have htm : delSurvives st en m = true :=
        decide_eq_true hsurv
      have hcnt : (compact_delete (canonCache vid m) st en 0 vs).1.length =
          expectedKeyAfterDel st en m := by
        rw [IH1, List.length_map]
        exact survCount_expectedKey st en hse m hsurv
      have hfilt : (List.range (m + 1)).filter (delSurvives st en) =
          (List.range m).filter (delSurvives st en) ++ [m] := by
        rw [List.range_succ, List.filter_append]
        simp [List.filter_singleton, htm]
      have hA2m : (compact_delete (canonCache vid m) st en 0 vs).2 (vid m) =
          vs (vid m) :=
        IH4 (vid m) hne
      have hcnt2 : ((List.filter (delSurvives st en) (List.range m)).map
          (fun k => (expectedKeyAfterDel st en k, vid k))).length =
          expectedKeyAfterDel st en m := by
        rw [List.length_map]
        exact survCount_expectedKey st en hse m hsurv
      refine ⟨?_, ?_, ?_, ?_⟩
      · simp only [hfilt, List.map_append, IH1, Nat.zero_add, hcnt2,
          List.map_cons, List.map_nil]
      · intro k hk hen
        by_cases hkm : k = m
        · subst hkm
          have hstk : st ≤ k := by omega
          rw [if_pos hstk]
          simp only [Nat.zero_add, hcnt, updView_same, hA2m]
        · have hkm2 : k < m := by omega
          by_cases hstm : st ≤ m
          · rw [if_pos hstm]
            simp only [Nat.zero_add]
            rw [updView_other _ _ _ _ (hne k hkm2)]
            exact IH2 k hkm2 hen
          · rw [if_neg hstm]
            exact IH2 k hkm2 hen
      · intro k hk hst
        by_cases hkm : k = m
        · subst hkm
          rw [if_neg (by omega)]
          exact IH4 (vid k) hne
        · have hkm2 : k < m := by omega
          by_cases hstm : st ≤ m
          · rw [if_pos hstm]
            simp only [Nat.zero_add]
            rw [updView_other _ _ _ _ (hne k hkm2)]
            exact IH3 k hkm2 hst
          · rw [if_neg hstm]
            exact IH3 k hkm2 hst
      · intro u hu
        have hum : vid m ≠ u := hu m (by omega)
        by_cases hstm : st ≤ m
        · rw [if_pos hstm]
          simp only [Nat.zero_add]
          rw [updView_other _ _ _ _ (fun he => hum he.symm)]
          exact IH4 u (fun k hk => hu k (by omega))
        · rw [if_neg hstm]
          exact IH4 u (fun k hk => hu k (by omega))

/-- With no active selection and `allow_empty_selection` on, the delete
reconciliation of descriptor `(st, en)` (over data already shrunken by
`[st..en]`) is exactly the cache compaction: the selection loop and the
empty-selection check are no-ops. -/
theorem reconcile_delete_shape (fuel : Nat) (s : Adapter) (st en : Nat)
    (hsel : s.selection = []) (hallow : s.allow_empty_selection = true) :
    data_changed_delete (fuel + 1)
        { s with data := s.data.take st ++ s.data.drop (en + 1) } st en =
      .ok { s with
        data := s.data.take st ++ s.data.drop (en + 1),
        cached_views := (compact_delete s.cached_views st en 0 s.views).1,
        views := (compact_delete s.cached_views st en 0 s.views).2 }
        Option.none := by
  unfold data_changed_delete
  simp only [hsel, List.map_nil]
  show run (fuel + 1) _ .cfes = _
  rw [show ∀ t, run (fuel + 1) t .cfes = cfesBody (run fuel) t from fun t => rfl]
  unfold cfesBody
  rw [if_neg (fun hc => by
    have h1 : s.allow_empty_selection = false := hc.1
    rw [hallow] at h1
    exact Bool.noConfusion h1)]

/-- Reading the post-delete data below the deleted range. -/
theorem delete_data_get_low (l : List DataItem) (st en k : Nat)
    (hst : k < st) (hk : k < l.length) :
    (l.take st ++ l.drop (en + 1)).get? k = l.get? k := by
  rw [List.get?_append (by rw [List.length_take]; omega), List.get?_take hst]

/-- Reading the post-delete data above the deleted range. -/
theorem delete_data_get_high (l : List DataItem) (st en k : Nat)
    (hse : st ≤ en) (hen : en < l.length) (hk : en < k) :
    (l.take st ++ l.drop (en + 1)).get? (k - (en + 1 - st)) = l.get? k := by
  have hlen : (l.take st).length = st := by rw [List.length_take]; omega
  rw [List.get?_append_right (by rw [hlen]; omega), List.get?_drop]
  congr 1
  rw [hlen]
  omega

/-- General form of the delete reconciliation on a well-formed cache:
for the descriptor `(st, en)` over data already shrunken by `[st..en]` —
entries at exactly the keys `0..m-1` (`m ≤ collection size`), distinct
views whose `index` fields and bound items match their keys — with no
active selection and `allow_empty_selection` on, the reconciliation
completes normally and: the views that were cached in `[st, en]` are
evicted; every surviving entry of old key `k ≥ en+1` sits at key
`k - (en-st+1)` with its view's `index` field set to that key; every
entry of old key `k < st` is unchanged; and every key of the resulting
cache equals both its view's `index` field and the current position of
the view's underlying item.  The descriptor matches the deleted data
span only for single-element deletes (see `remove_op` versus
`slice_delete_op`). -/
theorem reconcile_delete_canonical
    (s : Adapter) (m st en : Nat) (vid : Nat → Nat) (fuel : Nat)
    (hcache : s.cached_views = canonCache vid m)
    (hinj : ∀ k1 k2, k1 < m → k2 < m → vid k1 = vid k2 → k1 = k2)
    (hidx : ∀ k, k < m → (s.views (vid k)).index = k)
    (hitem : ∀ k, k < m → ∃ it, s.data.get? k = some it ∧
      (s.views (vid k)).itemId = it.id)
    (hm : m ≤ s.data.length)
    (hse : st ≤ en) (hen : en < s.data.length)
    (hsel : s.selection = []) (hallow : s.allow_empty_selection = true) :
    ∃ t : Adapter,
      data_changed_delete (fuel + 1)
          { s with data := s.data.take st ++ s.data.drop (en + 1) } st en =
        .ok t Option.none ∧
      t.data = s.data.take st ++ s.data.drop (en + 1) ∧
      (∀ k, k < m → st ≤ k → k ≤ en → vid k ∉ t.cached_views.map Prod.snd) ∧
      (∀ k, k < m → en < k →
        (k - (en + 1 - st), vid k) ∈ t.cached_views ∧
          (t.views (vid k)).index = k - (en + 1 - st)) ∧
      (∀ k, k < m → k < st →
        (k, vid k) ∈ t.cached_views ∧ t.views (vid k) = s.views (vid k)) ∧
      (∀ q ∈ t.cached_views, (t.views q.2).index = q.1 ∧
        ∃ it, t.data.get? q.1 = some it ∧ (t.views q.2).itemId = it.id) := by
  obtain ⟨HC1, HC2, HC3, HC4⟩ :=
    compact_delete_canonical st en hse m vid s.views hinj
  refine ⟨{ s with
      data := s.data.take st ++ s.data.drop (en + 1),
      cached_views := (compact_delete s.cached_views st en 0 s.views).1,
      views := (compact_delete s.cached_views st en 0 s.views).2 },
    reconcile_delete_shape fuel s st en hsel hallow, rfl, ?_, ?_, ?_, ?_⟩
  · intro k hk hst hen2 hmem
    rw [show ({ s with
        data := s.data.take st ++ s.data.drop (en + 1),
        cached_views := (compact_delete s.cached_views st en 0 s.views).1,
        views := (compact_delete s.cached_views st en 0 s.views).2 } :
        Adapter).cached_views =
      (compact_delete s.cached_views st en 0 s.views).1 from rfl,
      hcache, HC1, List.map_map] at hmem
    obtain ⟨k2, hk2mem, hk2eq⟩ := List.mem_map.mp hmem
    have hk2r := List.mem_filter.mp hk2mem
    have hk2m : k2 < m := List.mem_range.mp hk2r.1
    have hk2s : k2 < st ∨ en < k2 := of_decide_eq_true hk2r.2
    have : k2 = k := hinj k2 k hk2m hk (hk2eq)
    omega
  · intro k hk hen2
    constructor
    · show (k - (en + 1 - st), vid k) ∈
        (compact_delete s.cached_views st en 0 s.views).1
      rw [hcache, HC1]
      have hkf : k ∈ (List.range m).filter (delSurvives st en) :=
        List.mem_filter.mpr ⟨List.mem_range.mpr hk,
          decide_eq_true (Or.inr hen2)⟩
      have h5 : (expectedKeyAfterDel st en k, vid k) ∈
          ((List.range m).filter (delSurvives st en)).map
            (fun k => (expectedKeyAfterDel st en k, vid k)) :=
        List.mem_map_of_mem (fun k => (expectedKeyAfterDel st en k, vid k)) hkf
      rw [show expectedKeyAfterDel st en k = k - (en + 1 - st) by
        unfold expectedKeyAfterDel
        rw [if_neg (by omega)]] at h5
      exact h5
    · show ((compact_delete s.cached_views st en 0 s.views).2 (vid k)).index = _
      rw [hcache, HC2 k hk hen2]
      show expectedKeyAfterDel st en k = _
      unfold expectedKeyAfterDel
      rw [if_neg (by omega)]
  · intro k hk hst
    constructor
    · show (k, vid k) ∈ (compact_delete s.cached_views st en 0 s.views).1
      rw [hcache, HC1]
      have hkf : k ∈ (List.range m).filter (delSurvives st en) :=
        List.mem_filter.mpr ⟨List.mem_range.mpr hk,
          decide_eq_true (Or.inl hst)⟩
      have h5 : (expectedKeyAfterDel st en k, vid k) ∈
          ((List.range m).filter (delSurvives st en)).map
            (fun k => (expectedKeyAfterDel st en k, vid k)) :=
        List.mem_map_of_mem (fun k => (expectedKeyAfterDel st en k, vid k)) hkf
      rw [show expectedKeyAfterDel st en k = k by
        unfold expectedKeyAfterDel
        rw [if_pos hst]] at h5
      exact h5
    · show (compact_delete s.cached_views st en 0 s.views).2 (vid k) = _
      rw [hcache, HC3 k hk hst]
  · intro q hq
    rw [show ({ s with
        data := s.data.take st ++ s.data.drop (en + 1),
        cached_views := (compact_delete s.cached_views st en 0 s.views).1,
        views := (compact_delete s.cached_views st en 0 s.views).2 } :
        Adapter).cached_views =
      (compact_delete s.cached_views st en 0 s.views).1 from rfl,
      hcache, HC1] at hq
    obtain ⟨k, hkmem, hkeq⟩ := List.mem_map.mp hq
    have hkr := List.mem_filter.mp hkmem
    have hkm : k < m := List.mem_range.mp hkr.1
    have hks : k < st ∨ en < k := of_decide_eq_true hkr.2
    obtain ⟨it, hit, hitid⟩ := hitem k hkm
    subst hkeq
    rcases hks with hks | hks
    · constructor
      · show ((compact_delete s.cached_views st en 0 s.views).2 (vid k)).index = _
        rw [hcache, HC3 k hkm hks, hidx k hkm]
        show k = expectedKeyAfterDel st en k
        unfold expectedKeyAfterDel
        rw [if_pos hks]
      · refine ⟨it, ?_, ?_⟩
        · show (s.data.take st ++ s.data.drop (en + 1)).get?
            (expectedKeyAfterDel st en k) = some it
          rw [show expectedKeyAfterDel st en k = k by
            unfold expectedKeyAfterDel
            rw [if_pos hks]]
          rw [delete_data_get_low s.data st en k hks (by omega), hit]
        · show ((compact_delete s.cached_views st en 0 s.views).2 (vid k)).itemId = _
          rw [hcache, HC3 k hkm hks, hitid]
    · constructor
      · show ((compact_delete s.cached_views st en 0 s.views).2 (vid k)).index = _
        rw [hcache, HC2 k hkm hks]
      · refine ⟨it, ?_, ?_⟩
        · show (s.data.take st ++ s.data.drop (en + 1)).get?
            (expectedKeyAfterDel st en k) = some it
          rw [show expectedKeyAfterDel st en k = k - (en + 1 - st) by
            unfold expectedKeyAfterDel
            rw [if_neg (by omega)]]
          rw [delete_data_get_high s.data st en k hse hen hks, hit]
        · show ((compact_delete s.cached_views st en 0 s.views).2 (vid k)).itemId = _
          rw [hcache, HC2 k hkm hks]
          exact hitid

/-- Claim C1, as amended: for a single-element delete at position `i`
(a `remove`, whose recorded descriptor `(i, i)` matches the deleted
position; slice deletes record the exclusive stop and evict one extra
key — see `C1_counterexample` and `slice_delete_op`) on a well-formed
cache — entries at exactly the keys `0..m-1` (`m ≤ collection size`),
distinct views whose `index` fields and bound items match their keys —
with no active selection and `allow_empty_selection` on, the
reconciliation completes normally and: the view cached at `i` is
evicted; every surviving entry of old key `k > i` sits at key `k - 1`
with its view's `index` field set to `k - 1`; every entry of old key
`k < i` is unchanged (same key, untouched view); and every key of the
resulting cache equals both its view's `index` field and the current
position of the view's underlying item in the shrunken collection. -/
theorem C1_remove_reindex
    (s : Adapter) (m i : Nat) (vid : Nat → Nat) (fuel : Nat)
    (hcache : s.cached_views = canonCache vid m)
    (hinj : ∀ k1 k2, k1 < m → k2 < m → vid k1 = vid k2 → k1 = k2)
    (hidx : ∀ k, k < m → (s.views (vid k)).index = k)
    (hitem : ∀ k, k < m → ∃ it, s.data.get? k = some it ∧
      (s.views (vid k)).itemId = it.id)
    (hm : m ≤ s.data.length)
    (hi : i < s.data.length)
    (hsel : s.selection = []) (hallow : s.allow_empty_selection = true) :
    ∃ t : Adapter,
      remove_op (fuel + 1) s i = .ok t Option.none ∧
      t.data = s.data.take i ++ s.data.drop (i + 1) ∧
      (i < m → vid i ∉ t.cached_views.map Prod.snd) ∧
      (∀ k, k < m → i < k →
        (k - 1, vid k) ∈ t.cached_views ∧ (t.views (vid k)).index = k - 1) ∧
      (∀ k, k < m → k < i →
        (k, vid k) ∈ t.cached_views ∧ t.views (vid k) = s.views (vid k)) ∧
      (∀ q ∈ t.cached_views, (t.views q.2).index = q.1 ∧
        ∃ it, t.data.get? q.1 = some it ∧ (t.views q.2).itemId = it.id) := by
  obtain ⟨t, h1, h2, h3, h4, h5, h6⟩ :=
    reconcile_delete_canonical s m i i vid fuel hcache hinj hidx hitem hm
      (le_refl i) hi hsel hallow
  refine ⟨t, h1, h2, ?_, ?_, h5, h6⟩
  · intro him
    exact h3 i him (le_refl i) (le_refl i)
  · intro k hk hik
    have h7 := h4 k hk hik
    rwa [show i + 1 - i = 1 from by omega] at h7

/-- Claim C1, witness: the amended single-element delete reconciliation
applied to the five-item adapter with all views cached (keys 0..4),
removing the element at index 2. -/
theorem C1_remove_reindex_witness :
    ∃ t : Adapter,
      remove_op 1 adapterC4 2 = .ok t Option.none ∧
      t.data = adapterC4.data.take 2 ++ adapterC4.data.drop 3 ∧
      (2 < 5 → id 2 ∉ t.cached_views.map Prod.snd) ∧
      (∀ k, k < 5 → 2 < k →
        (k - 1, id k) ∈ t.cached_views ∧ (t.views (id k)).index = k - 1) ∧
      (∀ k, k < 5 → k < 2 →
        (k, id k) ∈ t.cached_views ∧ t.views (id k) = adapterC4.views (id k)) ∧
      (∀ q ∈ t.cached_views, (t.views q.2).index = q.1 ∧
        ∃ it, t.data.get? q.1 = some it ∧ (t.views q.2).itemId = it.id) :=
  C1_remove_reindex adapterC4 5 2 id 0
    (by decide)
    (fun k1 k2 _ _ h => h)
    (by decide)
    (by intro k hk; interval_cases k <;> exact ⟨_, rfl, rfl⟩)
    (by decide) (by decide) rfl rfl

/-- The selection-flag write leaves every other data slot unchanged. -/
theorem write_is_selected_get_other (l : List DataItem) (n : Nat) (b : Bool)
    (j : Nat) (hj : j ≠ n) :
    (write_is_selected l (n : Int) b).get? j = l.get? j := by
  unfold write_is_selected
  rw [if_neg (by omega), Int.toNat_natCast]
  cases h : l.get? n with
  | none => rfl
  | some it =>
    cases hk : it.kind with
    | selectable c =>
      simp only [hk]
      exact List.get?_set_ne _ _ (fun he => hj he.symm)
    | callableFlag c => simp [hk]
    | plainDict =>
      simp only [hk]
      exact List.get?_set_ne _ _ (fun he => hj he.symm)
    | plain => simp [hk]

/-- Selecting a view leaves every other view record unchanged. -/
theorem select_item_view_views_other (t : Adapter) (w u : Nat) (hu : u ≠ w) :
    (select_item_view t w).views u = t.views u := by
  unfold select_item_view set_data_item_selection
  by_cases h : t.propagate_selection_to_data <;> simp [h, updView, hu]

/-- Selecting never changes any view's `index` field. -/
theorem select_item_view_index (t : Adapter) (w u : Nat) :
    ((select_item_view t w).views u).index = (t.views u).index := by
  unfold select_item_view set_data_item_selection
  by_cases h : t.propagate_selection_to_data <;>
    by_cases hu : u = w <;>
      simp [h, updView, hu]

/-- Selecting a view leaves data slots at other indices unchanged. -/
theorem select_item_view_data_get (t : Adapter) (w j : Nat)
    (hj : j ≠ (t.views w).index) :
    (select_item_view t w).data.get? j = t.data.get? j := by
  rw [select_item_view_data]
  by_cases h : t.propagate_selection_to_data
  · rw [if_pos h]
    exact write_is_selected_get_other _ _ _ _ hj
  · rw [if_neg h]

/-- Deselecting a view leaves every other view record unchanged. -/
theorem deselect_item_view_views_other (t : Adapter) (w u : Nat) (hu : u ≠ w) :
    (deselect_item_view t w).views u = t.views u := by
  unfold deselect_item_view set_data_item_selection
  by_cases h : t.propagate_selection_to_data <;> simp [h, updView, hu]

/-- Deselecting never changes any view's `index` field. -/
theorem deselect_item_view_index (t : Adapter) (w u : Nat) :
    ((deselect_item_view t w).views u).index = (t.views u).index := by
  unfold deselect_item_view set_data_item_selection
  by_cases h : t.propagate_selection_to_data <;>
    by_cases hu : u = w <;>
      simp [h, updView, hu]

/-- Deselecting a view leaves data slots at other indices unchanged. -/
theorem deselect_item_view_data_get (t : Adapter) (w j : Nat)
    (hj : j ≠ (t.views w).index) :
    (deselect_item_view t w).data.get? j = t.data.get? j := by
  rw [deselect_item_view_data]
  by_cases h : t.propagate_selection_to_data
  · rw [if_pos h]
    exact write_is_selected_get_other _ _ _ _ hj
  · rw [if_neg h]

/-- Frame of the deselect-everything loop: views outside the selection
are untouched, no `index` field changes, data slots at indices not held
by any selected view are untouched, and the selection only shrinks. -/
theorem deselect_loop_frame (fl : Nat) :
    ∀ (t : Adapter) (pos : Nat),
      (∀ u, u ∉ t.selection → (deselect_loop fl t pos).views u = t.views u) ∧
      (∀ u, ((deselect_loop fl t pos).views u).index = (t.views u).index) ∧
      (∀ j, (∀ u, u ∈ t.selection → (t.views u).index ≠ j) →
        (deselect_loop fl t pos).data.get? j = t.data.get? j) ∧
      (∀ u, u ∈ (deselect_loop fl t pos).selection → u ∈ t.selection) := by
  induction fl with
  | zero =>
    intro t pos
    exact ⟨fun u _ => rfl, fun u => rfl, fun j _ => rfl, fun u hu => hu⟩
  | succ n ih =>
    intro t pos
    by_cases hpos : pos < t.selection.length
    · have hstep : deselect_loop (n + 1) t pos =
          deselect_loop n (deselect_item_view t (t.selection.getD pos 0)) (pos + 1) := by
        show (if pos < t.selection.length then
            deselect_loop n (deselect_item_view t (t.selection.getD pos 0)) (pos + 1)
          else t) =
          deselect_loop n (deselect_item_view t (t.selection.getD pos 0)) (pos + 1)
        rw [if_pos hpos]
      rw [hstep]
      have hw : t.selection.getD pos 0 ∈ t.selection := by
        rw [List.getD_eq_getElem t.selection 0 hpos]
        exact List.getElem_mem hpos
      obtain ⟨ihA, ihB, ihC, ihD⟩ :=
        ih (deselect_item_view t (t.selection.getD pos 0)) (pos + 1)
      refine ⟨?_, ?_, ?_, ?_⟩
      · intro u hu
        have hne : u ≠ t.selection.getD pos 0 := fun he => hu (he ▸ hw)
        have hu2 : u ∉ (deselect_item_view t (t.selection.getD pos 0)).selection := by
          rw [deselect_item_view_sel]
          intro hc
          exact hu (List.erase_subset _ _ hc)
        rw [ihA u hu2, deselect_item_view_views_other t _ u hne]
      · intro u
        rw [ihB u, deselect_item_view_index]
      · intro j hj
        rw [ihC j ?_, deselect_item_view_data_get t _ j (Ne.symm (hj _ hw))]
        intro u hu
        have hu2 : u ∈ t.selection := by
          rw [deselect_item_view_sel] at hu
          exact List.erase_subset _ _ hu
        rw [deselect_item_view_index]
        exact hj u hu2
      · intro u hu
        have := ihD u hu
        rw [deselect_item_view_sel] at this
        exact List.erase_subset _ _ this
    · have hstep : deselect_loop (n + 1) t pos = t := by
        show (if pos < t.selection.length then
            deselect_loop n (deselect_item_view t (t.selection.getD pos 0)) (pos + 1)
          else t) = t
        rw [if_neg hpos]
      rw [hstep]
      exact ⟨fun u _ => rfl, fun u => rfl, fun j _ => rfl, fun u hu => hu⟩

/-- The select branch either keeps the state or selects the toggled view. -/
theorem hsSelectBranch_cases (t : Adapter) (w : Nat) (s1 : Adapter) :
    hsSelectBranch t w s1 = .ok s1 Option.none ∨
      hsSelectBranch t w s1 = .ok (select_item_view s1 w) Option.none := by
  unfold hsSelectBranch
  split_ifs <;> first | exact Or.inl rfl | exact Or.inr rfl

/-- Invariant carried along the `select_list` toggle fold (claim C10):
the old selected view `v` is untouched, out of the selection, its item's
slot is unwritten, every selected view comes from the processed prefix
of `view_list`, and no `index` field has changed. -/
def untouchedInv (s : Adapter) (v : Nat) (view_list rem : List Nat)
    (t : Adapter) : Prop :=
  t.views v = s.views v ∧
  v ∉ t.selection ∧
  (∀ u, u ∈ t.selection → u ∈ view_list ∧ u ∉ rem) ∧
  t.data.get? ((s.views v).index) = s.data.get? ((s.views v).index) ∧
  (∀ u, (t.views u).index = (s.views u).index)

/-- Weakening the remaining-list component of the invariant. -/
theorem untouchedInv_nil_rem (s : Adapter) (v : Nat) (view_list rem : List Nat)
    (t : Adapter) (h : untouchedInv s v view_list rem t) :
    untouchedInv s v view_list [] t :=
  ⟨h.1, h.2.1, fun u hu => ⟨(h.2.2.1 u hu).1, List.not_mem_nil u⟩,
    h.2.2.2.1, h.2.2.2.2⟩

/-- The toggle fold of `select_list` preserves the C10 invariant when no
toggled view duplicates an earlier one or aliases `v`'s index. -/
theorem toggle_fold_untouched (s : Adapter) (v : Nat) (view_list : List Nat)
    (hnot : v ∉ view_list)
    (halias : ∀ w ∈ view_list, (s.views w).index ≠ (s.views v).index)
    (fuel : Nat) :
    ∀ (rem : List Nat) (t : Adapter), rem.Nodup →
      (∀ w ∈ rem, w ∈ view_list) →
      untouchedInv s v view_list rem t →
      untouchedInv s v view_list [] (resState (toggle_fold fuel rem t)) := by
  intro rem
  induction rem with
  | nil =>
    intro t _ _ hInv
    exact untouchedInv_nil_rem s v view_list [] t hInv
  | cons w rem ihrem =>
    intro t hnd hsub hInv
    have hwvl : w ∈ view_list := hsub w (List.mem_cons_self w rem)
    have hvw : v ≠ w := fun he => hnot (he ▸ hwvl)
    have hwrem : w ∉ rem := (List.nodup_cons.mp hnd).1
    have hfold : toggle_fold fuel (w :: rem) t =
        (match run fuel t (.hs w true) with
          | .exn t2 e => .exn t2 e
          | .ok t2 _ => toggle_fold fuel rem t2) := rfl
    cases fuel with
    | zero =>
      rw [hfold]
      exact untouchedInv_nil_rem s v view_list (w :: rem) t hInv
    | succ n =>
      have hwmem : w ∉ t.selection :=
        fun hc => (hInv.2.2.1 w hc).2 (List.mem_cons_self w rem)
      have hrun : run (n + 1) t (.hs w true) =
          hsSelectBranch t w
            (if (t.selection_mode = .none ∨ t.selection_mode = .single) ∧
                0 < t.selection.length then
              python_deselect_all t
            else t) := by
        show hsBody (run n) t w = _
        unfold hsBody
        rw [if_neg hwmem]
      have hS1 :
          (∀ u, u ∉ t.selection →
            (if (t.selection_mode = .none ∨ t.selection_mode = .single) ∧
                0 < t.selection.length then
              python_deselect_all t
            else t).views u = t.views u) ∧
          (∀ u, ((if (t.selection_mode = .none ∨ t.selection_mode = .single) ∧
                0 < t.selection.length then
              python_deselect_all t
            else t).views u).index = (t.views u).index) ∧
          (∀ j, (∀ u, u ∈ t.selection → (t.views u).index ≠ j) →
            (if (t.selection_mode = .none ∨ t.selection_mode = .single) ∧
                0 < t.selection.length then
              python_deselect_all t
            else t).data.get? j = t.data.get? j) ∧
          (∀ u, u ∈ (if (t.selection_mode = .none ∨ t.selection_mode = .single) ∧
                0 < t.selection.length then
              python_deselect_all t
            else t).selection → u ∈ t.selection) := by
        by_cases hcond : (t.selection_mode = .none ∨ t.selection_mode = .single) ∧
            0 < t.selection.length
        · rw [if_pos hcond]
          exact deselect_loop_frame (t.selection.length + 1) t 0
        · rw [if_neg hcond]
          exact ⟨fun u _ => rfl, fun u => rfl, fun j _ => rfl, fun u hu => hu⟩
      obtain ⟨hS1A, hS1B, hS1C, hS1D⟩ := hS1
      have hsel_ne : ∀ u, u ∈ t.selection → (t.views u).index ≠ (s.views v).index := by
        intro u hu
        rw [hInv.2.2.2.2 u]
        exact halias u (hInv.2.2.1 u hu).1
      have hInvS1 : untouchedInv s v view_list (w :: rem)
          (if (t.selection_mode = .none ∨ t.selection_mode = .single) ∧
              0 < t.selection.length then
            python_deselect_all t
          else t) := by
        refine ⟨?_, ?_, ?_, ?_, ?_⟩
        · rw [hS1A v hInv.2.1]
          exact hInv.1
        · intro hc
          exact hInv.2.1 (hS1D v hc)
        · intro u hu
          exact hInv.2.2.1 u (hS1D u hu)
        · rw [hS1C _ hsel_ne]
          exact hInv.2.2.2.1
        · intro u
          rw [hS1B u]
          exact hInv.2.2.2.2 u
      rcases hsSelectBranch_cases t w
          (if (t.selection_mode = .none ∨ t.selection_mode = .single) ∧
              0 < t.selection.length then
            python_deselect_all t
          else t) with hcase | hcase
      · rw [hfold, hrun, hcase]
        refine ihrem _ (List.nodup_cons.mp hnd).2
          (fun w2 hw2 => hsub w2 (List.mem_cons_of_mem w hw2)) ?_
        exact ⟨hInvS1.1, hInvS1.2.1,
          fun u hu => ⟨(hInvS1.2.2.1 u hu).1,
            fun hc => (hInvS1.2.2.1 u hu).2 (List.mem_cons_of_mem w hc)⟩,
          hInvS1.2.2.2.1, hInvS1.2.2.2.2⟩
      · rw [hfold, hrun, hcase]
        refine ihrem _ (List.nodup_cons.mp hnd).2
          (fun w2 hw2 => hsub w2 (List.mem_cons_of_mem w hw2)) ?_
        refine ⟨?_, ?_, ?_, ?_, ?_⟩
        · rw [select_item_view_views_other _ w v hvw]
          exact hInvS1.1
        · rw [select_item_view_sel]
          intro hc
          rcases List.mem_append.mp hc with hc | hc
          · exact hInvS1.2.1 hc
          · exact hvw (List.mem_singleton.mp hc)
        · intro u hu
          rw [select_item_view_sel] at hu
          rcases List.mem_append.mp hu with hu | hu
          · exact ⟨(hInvS1.2.2.1 u hu).1,
              fun hc => (hInvS1.2.2.1 u hu).2 (List.mem_cons_of_mem w hc)⟩
          · rw [List.mem_singleton.mp hu]
            exact ⟨hwvl, hwrem⟩
        · rw [select_item_view_data_get _ w _ ?_]
          · exact hInvS1.2.2.2.1
          · rw [hInvS1.2.2.2.2 w]
            exact Ne.symm (halias w hwvl)
        · intro u
          rw [select_item_view_index, hInvS1.2.2.2.2 u]

/-- Claim C10, as amended: for `select_list(view_list, extend=False)`
with a duplicate-free `view_list` none of whose views shares an index
with the previously selected view `v` outside `view_list`: `v` is
removed from the selection without `deselect` being invoked on it — its
view record (selected flag, select/deselect display counters) is
bit-for-bit unchanged — and its data item's selection slot is not
written. -/
theorem C10_amended (fuel : Nat) (s : Adapter) (view_list : List Nat)
    (v : Nat) (hv : v ∈ s.selection) (hnot : v ∉ view_list)
    (hnd : view_list.Nodup)
    (halias : ∀ w ∈ view_list, (s.views w).index ≠ (s.views v).index) :
    (resState (select_list fuel s view_list false)).views v = s.views v ∧
      v ∉ (resState (select_list fuel s view_list false)).selection ∧
      (resState (select_list fuel s view_list false)).data.get?
          ((s.views v).index) = s.data.get? ((s.views v).index) := by
  have h0 : untouchedInv s v view_list view_list { s with selection := [] } :=
    ⟨rfl, List.not_mem_nil v, fun u hu => absurd hu (List.not_mem_nil u),
      rfl, fun u => rfl⟩
  have H := toggle_fold_untouched s v view_list hnot halias fuel view_list
    { s with selection := [] } hnd (fun w hw => hw) h0
  exact ⟨H.1, H.2.1, H.2.2.2.1⟩

/-- A state for the C10 witness: view 9 (index 2) selected, views 1 and 2
bound to indices 0 and 1, propagation on. -/
def adapterC10w : Adapter :=
  { baseAdapter with
    data := [⟨0, .selectable false⟩, ⟨1, .selectable false⟩,
      ⟨2, .selectable true⟩],
    propagate_selection_to_data := true,
    selection := [9],
    views := fun u =>
      if u = 9 then ⟨2, 2, true, 1, 0⟩
      else mkViewRec (if u = 1 then 0 else 1) false }

/-- Claim C10, witness: `select_list([1, 2], extend=False)` leaves the
previously selected view 9 untouched, out of the selection, and its
item's slot unwritten. -/
theorem C10_witness :
    (resState (select_list 5 adapterC10w [1, 2] false)).views 9 =
        adapterC10w.views 9 ∧
      9 ∉ (resState (select_list 5 adapterC10w [1, 2] false)).selection ∧
      (resState (select_list 5 adapterC10w [1, 2] false)).data.get?
          ((adapterC10w.views 9).index) =
        adapterC10w.data.get? ((adapterC10w.views 9).index) :=
  C10_amended 5 adapterC10w [1, 2] 9 (by decide) (by decide) (by decide)
    (by decide)
